import Mathlib

/-!
Verification of the streaming protocol layer of the SMUS Data Agent
editor integration.

The embedded code is the stdout framing / line-reassembly loop shared by
`AIAgentService.sendMessage` and `ChatViewProvider.sendMessageToAgent`,
the close handlers of `clearSession` / `getSessionHistory`, and the
session-id routing of `AIAgentService`.  Text is modelled as `List Char`
(the protocol streams are ASCII, so byte fragments and character
fragments coincide); the promise is modelled as an `Option Outcome`
that keeps its first value, matching the settle-once semantics of a
JavaScript promise.
-/

namespace MCP

/-- Text, modelled as a list of characters. -/
abbrev Str := List Char

/-- One application of the consumer loop's reassembly step:
`responseBuffer.split('\n')` followed by `lines.pop()`.  Returns the
complete (newline-terminated) lines and the held-back trailing
fragment. -/
def splitLines : Str → List Str × Str
  | [] => ([], [])
  | c :: cs =>
    if c = '\n' then ([] :: (splitLines cs).1, (splitLines cs).2)
    else
      match (splitLines cs).1, (splitLines cs).2 with
      | [], r => ([], c :: r)
      | l :: ls, r => ((c :: l) :: ls, r)

/-- Splitting a concatenation first splits the left part; the left
part's held-back remainder is prepended to the right part. -/
theorem splitLines_append (a b : Str) :
    splitLines (a ++ b) =
      ((splitLines a).1 ++ (splitLines ((splitLines a).2 ++ b)).1,
       (splitLines ((splitLines a).2 ++ b)).2) := by
  induction a with
  | nil => simp [splitLines]
  | cons c cs ih =>
    by_cases hc : c = '\n'
    · subst hc
      simp [splitLines, ih]
    · simp only [List.cons_append, splitLines, if_neg hc]
      rcases h1 : (splitLines cs).1 with _ | ⟨l, ls⟩
      · rcases h2 : (splitLines ((splitLines cs).2 ++ b)).1 with _ | ⟨m, ms⟩
        · simp [splitLines, if_neg hc, ih, h1, h2]
        · simp [splitLines, if_neg hc, ih, h1, h2]
      · simp [splitLines, if_neg hc, ih, h1]

/-- A stream of characters containing no newline is held back whole. -/
theorem splitLines_of_no_newline (a : Str) (h : '\n' ∉ a) :
    splitLines a = ([], a) := by
  induction a with
  | nil => rfl
  | cons c cs ih =>
    have hc : c ≠ '\n' := fun hh => h (hh ▸ List.mem_cons_self _ _)
    have hcs : '\n' ∉ cs := fun hh => h (List.mem_cons_of_mem _ hh)
    simp [splitLines, if_neg hc, ih hcs]

/-- A newline-free prefix followed by a newline is cut out as one
complete line. -/
theorem splitLines_newline_cut (a r : Str) (h : '\n' ∉ a) :
    splitLines (a ++ '\n' :: r) =
      (a :: (splitLines r).1, (splitLines r).2) := by
  induction a with
  | nil => simp [splitLines]
  | cons c cs ih =>
    have hc : c ≠ '\n' := fun hh => h (hh ▸ List.mem_cons_self _ _)
    have hcs : '\n' ∉ cs := fun hh => h (List.mem_cons_of_mem _ hh)
    simp [splitLines, if_neg hc, ih hcs]

/-- Settled state of the request's promise. -/
inductive Outcome
  | resolved
  | rejected (msg : Str)
deriving DecidableEq

/-- JavaScript promise settle-once semantics: a `resolve`/`reject` call
on an already settled promise is a no-op, so the first recorded
outcome wins. -/
def settle (s : Option Outcome) (o : Outcome) : Option Outcome :=
  match s with
  | none => some o
  | some x => some x

/-- Model of `fs.unlinkSync(scriptPath)`: succeeds (removing the file)
when the file exists, otherwise throws. -/
def unlinkSync (fileExists : Bool) : Except Unit Bool :=
  if fileExists then Except.ok false else Except.error ()

/-- The message logged by every `catch (e) { console.error(...) }`
around a cleanup call. -/
def cleanupFailMessage : Str := "Failed to clean up temp file:".data

/-- The `try { fs.unlinkSync(scriptPath) } catch (e) { console.error }`
pattern used at every cleanup site: a deletion failure is logged and
swallowed, never rethrown. -/
def tryUnlink (fileExists : Bool) (log : List Str) : Bool × List Str :=
  match unlinkSync fileExists with
  | Except.ok fs => (fs, log)
  | Except.error _ => (fileExists, log ++ [cleanupFailMessage])

/-- Wire-protocol prefix for a content chunk line. -/
def chunkMarker : Str := "CHUNK:".data

/-- Wire-protocol terminal line for successful completion. -/
def endStreamLine : Str := "END_STREAM".data

/-- Wire-protocol prefix for an agent-reported error line. -/
def errorMarker : Str := "ERROR:".data

/-- Model of JavaScript `line.startsWith(p)`. -/
def startsWith : Str → Str → Bool
  | _, [] => true
  | [], _ :: _ => false
  | c :: l, p :: ps => if c = p then startsWith l ps else false

/-- `startsWith` holds on any extension of the tested text. -/
theorem startsWith_append (p l : Str) : startsWith (p ++ l) p = true := by
  induction p with
  | nil => cases l <;> rfl
  | cons c cs ih => simp [startsWith, ih]

/-- Classification test `line.startsWith('CHUNK:')`. -/
def isChunkLine (l : Str) : Bool := startsWith l chunkMarker

/-- Classification test `line.startsWith('ERROR:')`. -/
def isErrorLine (l : Str) : Bool := startsWith l errorMarker

/-- A line on which the consumer loop hits a terminal branch
(`END_STREAM` or `ERROR:`), taking the branch order of the source
(`CHUNK:` is tested first). -/
def isTerminalLine (l : Str) : Bool :=
  if isChunkLine l then false
  else if l = endStreamLine then true
  else isErrorLine l

/-- State observable around the promise of one
`AIAgentService.sendMessage` call: the held reassembly buffer, the
`onChunk` invocations so far (oldest first), the promise state, the
temp script file, and the `console.error` log. -/
structure StreamState where
  buffer : Str
  chunks : List Str
  settled : Option Outcome
  fileExists : Bool
  log : List Str
deriving DecidableEq

/-- State at entry of the stdout `data` handler: the temp script was
just written (`fs.writeFileSync`) and nothing has streamed yet. -/
def initState : StreamState :=
  { buffer := [], chunks := [], settled := none, fileExists := true, log := [] }

/-- Body of the `for (const line of lines)` loop of
`AIAgentService.sendMessage`'s stdout handler: `CHUNK:` lines invoke
`onChunk` with the text after the prefix, `END_STREAM` deletes the
temp script and resolves then returns, `ERROR:` rejects with the text
after the prefix then returns, any other line is skipped. -/
def processLines (st : StreamState) : List Str → StreamState
  | [] => st
  | line :: rest =>
    if isChunkLine line then
      processLines { st with chunks := st.chunks ++ [line.drop 6] } rest
    else if line = endStreamLine then
      { st with
        fileExists := (tryUnlink st.fileExists st.log).1,
        log := (tryUnlink st.fileExists st.log).2,
        settled := settle st.settled Outcome.resolved }
    else if isErrorLine line then
      { st with settled := settle st.settled (Outcome.rejected (line.drop 6)) }
    else
      processLines st rest

/-- The stdout `data` handler: append the fragment to the buffer,
split off the complete lines, hold back the trailing fragment, and run
the classification loop. -/
def onData (st : StreamState) (s : Str) : StreamState :=
  processLines
    { st with buffer := (splitLines (st.buffer ++ s)).2 }
    (splitLines (st.buffer ++ s)).1

/-- Rejection message for an abnormal exit:
`Python process exited with code ${code}`. -/
def exitMessage (code : Nat) : Str :=
  "Python process exited with code ".data ++ (toString code).data

/-- The process `close` handler: delete the temp script (failure
logged), then reject on a non-zero exit code, else resolve. -/
def onClose (st : StreamState) (code : Nat) : StreamState :=
  if code ≠ 0 then
    { st with
      fileExists := (tryUnlink st.fileExists st.log).1,
      log := (tryUnlink st.fileExists st.log).2,
      settled := settle st.settled (Outcome.rejected (exitMessage code)) }
  else
    { st with
      fileExists := (tryUnlink st.fileExists st.log).1,
      log := (tryUnlink st.fileExists st.log).2,
      settled := settle st.settled Outcome.resolved }

/-- An event observed by the handlers of one request: a stdout `data`
fragment or the process `close` event with an exit code. -/
inductive Ev
  | data (s : Str)
  | close (code : Nat)

/-- Dispatch one event to its handler. -/
def step (st : StreamState) : Ev → StreamState
  | Ev.data s => onData st s
  | Ev.close code => onClose st code

/-- Run the `AIAgentService.sendMessage` handlers over a whole event
sequence, starting from the fresh request state. -/
def run (evs : List Ev) : StreamState := evs.foldl step initState

/-- The chunk text a single line contributes, if any. -/
def chunkOfLine (l : Str) : Option Str :=
  if isChunkLine l then some (l.drop 6) else none

/-- On a batch of non-terminal lines the loop body only appends the
chunk texts: buffer, promise, file and log are untouched and no early
return fires. -/
theorem processLines_of_nonterminal (lines : List Str) (st : StreamState)
    (h : ∀ l ∈ lines, isTerminalLine l = false) :
    processLines st lines =
      { st with chunks := st.chunks ++ lines.filterMap chunkOfLine } := by
  induction lines generalizing st with
  | nil => simp [processLines]
  | cons l rest ih =>
    have hl := h l (List.mem_cons_self _ _)
    have hrest : ∀ x ∈ rest, isTerminalLine x = false :=
      fun x hx => h x (List.mem_cons_of_mem _ hx)
    by_cases hcl : isChunkLine l
    · simp [processLines, hcl, chunkOfLine, ih _ hrest]
    · have hend : l ≠ endStreamLine := by
        intro hh
        rw [isTerminalLine, if_neg (by simp [hcl]), if_pos hh] at hl
        simp at hl
      have herr : isErrorLine l = false := by
        rw [isTerminalLine, if_neg (by simp [hcl]), if_neg hend] at hl
        exact hl
      simp [processLines, hcl, hend, herr, chunkOfLine, ih _ hrest]

/-- When the first batch of lines is non-terminal, the loop over a
concatenation of batches factors through the intermediate state. -/
theorem processLines_append (l1 l2 : List Str) (st : StreamState)
    (h : ∀ l ∈ l1, isTerminalLine l = false) :
    processLines st (l1 ++ l2) = processLines (processLines st l1) l2 := by
  induction l1 generalizing st with
  | nil => simp [processLines]
  | cons l rest ih =>
    have hl := h l (List.mem_cons_self _ _)
    have hrest : ∀ x ∈ rest, isTerminalLine x = false :=
      fun x hx => h x (List.mem_cons_of_mem _ hx)
    by_cases hcl : isChunkLine l
    · simp [processLines, hcl, ih _ hrest]
    · have hend : l ≠ endStreamLine := by
        intro hh
        rw [isTerminalLine, if_neg (by simp [hcl]), if_pos hh] at hl
        simp at hl
      have herr : isErrorLine l = false := by
        rw [isTerminalLine, if_neg (by simp [hcl]), if_neg hend] at hl
        exact hl
      simp [processLines, hcl, hend, herr, ih _ hrest]

/-- As long as the already complete lines are non-terminal, delivering
two fragments separately equals delivering their concatenation: the
data handler is invariant under re-chopping of the transport. -/
theorem onData_append (st : StreamState) (a b : Str)
    (h : ∀ l ∈ (splitLines (st.buffer ++ a)).1, isTerminalLine l = false) :
    onData st (a ++ b) = onData (onData st a) b := by
  have hsplit := splitLines_append (st.buffer ++ a) b
  rw [onData, onData, onData, ← List.append_assoc, hsplit]
  rw [processLines_of_nonterminal _ _ h]
  rw [processLines_append _ _ _ h]
  rw [processLines_of_nonterminal _ _ h]

/-- Once the promise is settled, the line loop can no longer change
its value. -/
theorem processLines_settled (lines : List Str) (st : StreamState)
    (o : Outcome) (h : st.settled = some o) :
    (processLines st lines).settled = some o := by
  induction lines generalizing st with
  | nil => simpa [processLines] using h
  | cons l rest ih =>
    by_cases hcl : isChunkLine l
    · simp only [processLines, hcl, if_pos]
      exact ih _ (by simpa using h)
    · by_cases hend : l = endStreamLine
      · subst hend
        simp [processLines, hcl, settle, h]
      · by_cases herr : isErrorLine l
        · simp [processLines, hcl, hend, herr, settle, h]
        · simp only [processLines, hcl, hend, herr]
          simp only [if_neg hcl, if_neg hend, Bool.false_eq_true, if_false]
          exact ih _ h

/-- Once the promise is settled, no later event changes its value. -/
theorem step_settled (st : StreamState) (e : Ev) (o : Outcome)
    (h : st.settled = some o) : (step st e).settled = some o := by
  cases e with
  | data s => exact processLines_settled _ _ _ (by simpa using h)
  | close code =>
    by_cases hc : code ≠ 0 <;> simp [step, onClose, hc, settle, h]

/-- Once the promise is settled after some events, any further events
leave it settled with the same outcome (first terminal wins). -/
theorem run_append_settled (l m : List Ev) (o : Outcome)
    (h : (run l).settled = some o) : (run (l ++ m)).settled = some o := by
  have aux : ∀ (m : List Ev) (st : StreamState), st.settled = some o →
      (m.foldl step st).settled = some o := by
    intro m
    induction m with
    | nil => intro st hst; simpa using hst
    | cons e m ih =>
      intro st hst
      exact ih _ (step_settled _ _ _ hst)
  rw [run, List.foldl_append]
  exact aux m _ h

/-- The concrete stream of the framing-correctness property. -/
def c1Stream : Str := "CHUNK:Hello\nCHUNK: world\nEND_STREAM\n".data

/-- Every complete line of a proper prefix of the framing test stream
is non-terminal (the terminal `END_STREAM` line only completes with
the stream's final newline). -/
theorem c1_prefix_nonterminal (p : Str) (hp : p <+: c1Stream)
    (hne : p ≠ c1Stream) :
    ∀ l ∈ (splitLines p).1, isTerminalLine l = false := by
  have hlt : p.length < c1Stream.length := by
    rcases Nat.lt_or_ge p.length c1Stream.length with h | h
    · exact h
    · exact absurd (hp.eq_of_length (Nat.le_antisymm hp.length_le h)) hne
  have htake : p = c1Stream.take p.length := List.prefix_iff_eq_take.mp hp
  have hdec : ∀ n < c1Stream.length,
      ∀ l ∈ (splitLines (c1Stream.take n)).1, isTerminalLine l = false := by
    decide
  rw [htake]
  exact hdec _ hlt

/-- Feeding an empty fragment to a handler whose buffer is empty is a
no-op. -/
theorem onData_nil (st : StreamState) (h : st.buffer = []) :
    onData st [] = st := by
  cases st
  simp_all [onData, splitLines, processLines]

/-- Feeding any fragmentation of a prefix of the framing test stream
reaches the same state as feeding that prefix in one piece. -/
theorem run_data_whole (frags : List Str) (p : Str)
    (hjoin : frags.flatten = p) (hp : p <+: c1Stream) :
    run (frags.map Ev.data) = onData initState p := by
  induction frags using List.reverseRecOn generalizing p with
  | nil =>
    rw [← hjoin]
    rw [List.map_nil, run, List.foldl_nil, List.flatten_nil]
    exact (onData_nil initState rfl).symm
  | append_singleton frags f ih =>
    have hjoin' : frags.flatten ++ f = p := by
      rw [← hjoin]; simp
    have hp' : frags.flatten <+: c1Stream :=
      List.IsPrefix.trans (hjoin' ▸ List.prefix_append _ _) hp
    have hrun : run ((frags ++ [f]).map Ev.data)
        = onData (onData initState frags.flatten) f := by
      rw [List.map_append, List.map_singleton, run, List.foldl_append]
      rw [← run, ih frags.flatten rfl hp']
      rfl
    by_cases hne : frags.flatten = c1Stream
    · have hlen : f = [] := by
        have h1 : p.length ≤ c1Stream.length := hp.length_le
        rw [← hjoin', List.length_append, hne] at h1
        have h0 : f.length = 0 := by omega
        exact List.length_eq_zero.mp h0
      have hpc : p = c1Stream := by
        rw [← hjoin', hne, hlen, List.append_nil]
      have hb : (onData initState c1Stream).buffer = [] := by decide
      rw [hrun, hne, hlen, hpc, onData_nil _ hb]
    · have hnt : ∀ l ∈ (splitLines (initState.buffer ++ frags.flatten)).1,
          isTerminalLine l = false := by
        have := c1_prefix_nonterminal frags.flatten hp' hne
        simpa [initState] using this
      rw [hrun, ← onData_append initState frags.flatten f hnt, hjoin']

/-- C1: for every way of chopping the byte stream
`CHUNK:Hello\nCHUNK: world\nEND_STREAM\n` into successive stdout data
fragments (including one byte at a time), the stream-decoding loop of
`sendMessage`/`sendMessageToAgent` invokes `onChunk` with "Hello" then
" world", in that order, and the promise resolves. -/
theorem c1_framing_correctness (frags : List Str)
    (hjoin : frags.flatten = c1Stream) :
    (run (frags.map Ev.data)).chunks = ["Hello".data, " world".data] ∧
    (run (frags.map Ev.data)).settled = some Outcome.resolved := by
  rw [run_data_whole frags c1Stream hjoin (List.prefix_refl _)]
  exact ⟨by decide, by decide⟩

/-- Witness for C1: single-fragment delivery of the test stream. -/
theorem c1_framing_correctness_witness :
    (run ([c1Stream].map Ev.data)).chunks = ["Hello".data, " world".data] ∧
    (run ([c1Stream].map Ev.data)).settled = some Outcome.resolved :=
  c1_framing_correctness [c1Stream] (by decide)

/-- C2 counterexample: with `CHUNK:partial` delivered and the stream
then closing (exit code 0), the held buffer is never flushed: `onChunk`
is never invoked (in particular not with "partial") and the request
resolves on the exit code alone. -/
theorem c2_counterexample :
    (run [Ev.data "CHUNK:partial".data, Ev.close 0]).chunks = [] ∧
    (run [Ev.data "CHUNK:partial".data, Ev.close 0]).settled
      = some Outcome.resolved := by
  decide

/-- C2 (amended): if the last fragment before the close is
`CHUNK:partial` with no trailing newline, the held buffer is discarded,
not flushed: `onChunk` is never invoked, the unterminated text stays in
the buffer, and the request settles solely on the exit code. -/
theorem c2_unterminated_final_line_amended :
    (run [Ev.data "CHUNK:partial".data, Ev.close 0]).chunks = [] ∧
    (run [Ev.data "CHUNK:partial".data, Ev.close 0]).buffer
      = "CHUNK:partial".data ∧
    (run [Ev.data "CHUNK:partial".data, Ev.close 0]).settled
      = some Outcome.resolved := by
  decide

/-- C3 counterexample: after `CHUNK:x\nERROR:boom\n` rejects the
promise, a later stdout data event `CHUNK:y\n` is still processed and
its chunk is still delivered to `onChunk`, so the chunk sequence is not
limited to the one before the error. -/
theorem c3_counterexample :
    (run [Ev.data "CHUNK:x\nERROR:boom\n".data, Ev.data "CHUNK:y\n".data]).chunks
      = ["x".data, "y".data] ∧
    ["x".data, "y".data] ≠ [("x".data : Str)] ∧
    (run [Ev.data "CHUNK:x\nERROR:boom\n".data, Ev.data "CHUNK:y\n".data]).settled
      = some (Outcome.rejected "boom".data) := by
  decide

/-- C3 (amended): on `CHUNK:x\nERROR:boom\n` the caller observes
`Chunk("x")` and the promise is rejected with exactly "boom"; the
settled outcome is never overturned by any later events; but frames
arriving in later stdout data events are still processed and their
chunk frames are still delivered to `onChunk` (only the remaining
lines of the same data event are dropped). -/
theorem c3_error_precedence_amended :
    (run [Ev.data "CHUNK:x\nERROR:boom\n".data]).chunks = ["x".data] ∧
    (run [Ev.data "CHUNK:x\nERROR:boom\n".data]).settled
      = some (Outcome.rejected "boom".data) ∧
    (∀ more : List Ev,
      (run ([Ev.data "CHUNK:x\nERROR:boom\n".data] ++ more)).settled
        = some (Outcome.rejected "boom".data)) ∧
    (run [Ev.data "CHUNK:x\nERROR:boom\nCHUNK:dropped\n".data]).chunks
      = ["x".data] ∧
    (run [Ev.data "CHUNK:x\nERROR:boom\n".data, Ev.data "CHUNK:y\n".data]).chunks
      = ["x".data, "y".data] := by
  refine ⟨by decide, by decide, ?_, by decide, by decide⟩
  intro more
  exact run_append_settled _ more _ (by decide)

/-- C4: first terminal wins.  If the promise is already resolved (an
`END_STREAM` line was decoded), a later `close` event with a non-zero
exit code cannot overturn it; the exit code decides the outcome only
when no terminal frame settled the promise before the close. -/
theorem c4_first_terminal_wins (evs : List Ev) (code : Nat) :
    ((run evs).settled = some Outcome.resolved →
      (run (evs ++ [Ev.close code])).settled = some Outcome.resolved) ∧
    ((run evs).settled = none →
      (run (evs ++ [Ev.close code])).settled =
        some (if code = 0 then Outcome.resolved
              else Outcome.rejected (exitMessage code))) := by
  have hrw : run (evs ++ [Ev.close code]) = onClose (run evs) code := by
    rw [run, List.foldl_append]
    rfl
  constructor
  · intro h
    rw [hrw]
    by_cases hc : code = 0 <;> simp [onClose, hc, settle, h]
  · intro h
    rw [hrw]
    by_cases hc : code = 0 <;> simp [onClose, hc, settle, h]

/-- Witness for C4: the test stream resolves, and a subsequent close
with exit code 2 leaves the promise resolved. -/
theorem c4_first_terminal_wins_witness :
    (run [Ev.data c1Stream]).settled = some Outcome.resolved ∧
    (run ([Ev.data c1Stream] ++ [Ev.close 2])).settled
      = some Outcome.resolved :=
  ⟨by decide, (c4_first_terminal_wins [Ev.data c1Stream] 2).1 (by decide)⟩

/-- The close handler settles the promise from the exit code alone. -/
theorem onClose_settled_eq (st : StreamState) (code : Nat) :
    (onClose st code).settled =
      settle st.settled
        (if code = 0 then Outcome.resolved
         else Outcome.rejected (exitMessage code)) := by
  by_cases hc : code = 0 <;> simp [onClose, hc]

/-- C7: cleanup never escalates.  The settled outcome after the close
handler does not depend on whether the temp file still exists; a raw
`unlinkSync` on the already-removed file does throw, but the guarded
cleanup returns normally and only appends a log entry; and in the
concrete double-deletion run (`END_STREAM` path deletes first, close
handler deletes again) the request stays resolved and the second
failure is only logged. -/
theorem c7_cleanup_never_escalates :
    (∀ (st : StreamState) (code : Nat) (b : Bool),
        (onClose { st with fileExists := b } code).settled
          = (onClose st code).settled) ∧
    (∀ log : List Str,
        tryUnlink false log = (false, log ++ [cleanupFailMessage])) ∧
    unlinkSync false = Except.error () ∧
    (run [Ev.data c1Stream, Ev.close 0]).settled = some Outcome.resolved ∧
    (run [Ev.data c1Stream, Ev.close 0]).log = [cleanupFailMessage] ∧
    (run [Ev.data c1Stream, Ev.close 0]).fileExists = false := by
  refine ⟨?_, fun log => rfl, rfl, by decide, by decide, by decide⟩
  intro st code b
  rw [onClose_settled_eq, onClose_settled_eq]

/-- Session-id state of `AIAgentService`. -/
structure AIAgentServiceState where
  currentSessionId : Str
deriving DecidableEq

/-- Constructor state: `currentSessionId = 'vscode_session'`. -/
def initialServiceState : AIAgentServiceState :=
  { currentSessionId := "vscode_session".data }

/-- `AIAgentService.setSessionId`. -/
def setSessionId (st : AIAgentServiceState) (sessionId : Str) :
    AIAgentServiceState :=
  { st with currentSessionId := sessionId }

/-- `AIAgentService.getCurrentSessionId`. -/
def getCurrentSessionId (st : AIAgentServiceState) : Str :=
  st.currentSessionId

/-- The session used by `sendMessage`, `getSessionHistory` and
`clearSession`: each computes
`const session = sessionId || this.currentSessionId`, where an omitted
argument is `undefined` and both `undefined` and the empty string are
falsy in JavaScript. -/
def effectiveSession (st : AIAgentServiceState) (sessionId : Option Str) :
    Str :=
  match sessionId with
  | some s => if s = [] then st.currentSessionId else s
  | none => st.currentSessionId

/-- C10: `getCurrentSessionId` returns `vscode_session` before any
`setSessionId`; after `setSessionId s` it returns exactly `s`; and a
call of `sendMessage`, `getSessionHistory` or `clearSession` that
omits the sessionId argument uses the current session id. -/
theorem c10_session_routing :
    getCurrentSessionId initialServiceState = "vscode_session".data ∧
    (∀ (st : AIAgentServiceState) (s : Str),
        getCurrentSessionId (setSessionId st s) = s) ∧
    (∀ st : AIAgentServiceState,
        effectiveSession st none = getCurrentSessionId st) :=
  ⟨rfl, fun _ _ => rfl, fun _ => rfl⟩

/-- A message posted to the webview by
`ChatViewProvider.sendMessageToAgent`: a `streamChunk` per decoded
chunk, and the final assistant `addMessage` with the accumulated
response on `END_STREAM`. -/
inductive WebviewMsg
  | streamChunk (chunk : Str)
  | addMessage (content : Str)
deriving DecidableEq

/-- State observable around the promise of one
`ChatViewProvider.sendMessageToAgent` call; `_view` is set once in
`resolveWebviewView` before any chat message can arrive and is never
cleared, so the webview is modelled as present. -/
structure CvpState where
  buffer : Str
  fullResponse : Str
  posts : List WebviewMsg
  settled : Option Outcome
  fileExists : Bool
  log : List Str
deriving DecidableEq

/-- Fresh request state of `sendMessageToAgent`. -/
def cvpInitState : CvpState :=
  { buffer := [], fullResponse := [], posts := [], settled := none,
    fileExists := true, log := [] }

/-- Body of the `for (const line of lines)` loop of
`sendMessageToAgent`'s stdout handler: `CHUNK:` lines extend
`fullResponse` and post a `streamChunk`; `END_STREAM` posts the final
assistant message, deletes the temp script and resolves then returns;
`ERROR:` rejects then returns; other lines are skipped. -/
def cvpProcessLines (st : CvpState) : List Str → CvpState
  | [] => st
  | line :: rest =>
    if isChunkLine line then
      cvpProcessLines
        { st with
          fullResponse := st.fullResponse ++ line.drop 6,
          posts := st.posts ++ [WebviewMsg.streamChunk (line.drop 6)] } rest
    else if line = endStreamLine then
      { st with
        posts := st.posts ++ [WebviewMsg.addMessage st.fullResponse],
        fileExists := (tryUnlink st.fileExists st.log).1,
        log := (tryUnlink st.fileExists st.log).2,
        settled := settle st.settled Outcome.resolved }
    else if isErrorLine line then
      { st with settled := settle st.settled (Outcome.rejected (line.drop 6)) }
    else
      cvpProcessLines st rest

/-- The stdout `data` handler of `sendMessageToAgent`. -/
def cvpOnData (st : CvpState) (s : Str) : CvpState :=
  cvpProcessLines
    { st with buffer := (splitLines (st.buffer ++ s)).2 }
    (splitLines (st.buffer ++ s)).1

/-- The process `close` handler of `sendMessageToAgent`: identical to
the `AIAgentService.sendMessage` one. -/
def cvpOnClose (st : CvpState) (code : Nat) : CvpState :=
  if code ≠ 0 then
    { st with
      fileExists := (tryUnlink st.fileExists st.log).1,
      log := (tryUnlink st.fileExists st.log).2,
      settled := settle st.settled (Outcome.rejected (exitMessage code)) }
  else
    { st with
      fileExists := (tryUnlink st.fileExists st.log).1,
      log := (tryUnlink st.fileExists st.log).2,
      settled := settle st.settled Outcome.resolved }

/-- Dispatch one event to the `sendMessageToAgent` handlers. -/
def cvpStep (st : CvpState) : Ev → CvpState
  | Ev.data s => cvpOnData st s
  | Ev.close code => cvpOnClose st code

/-- Run the `sendMessageToAgent` handlers over an event sequence. -/
def cvpRun (evs : List Ev) : CvpState := evs.foldl cvpStep cvpInitState

/-- The chunk text a webview post delivers, if any. -/
def chunkOfPost : WebviewMsg → Option Str
  | WebviewMsg.streamChunk c => some c
  | WebviewMsg.addMessage _ => none

/-- Protocol-level view of a `sendMessageToAgent` state: the delivered
chunk texts (the `streamChunk` posts) together with buffer, promise,
temp file and log. -/
def cvpProj (st : CvpState) : StreamState :=
  { buffer := st.buffer, chunks := st.posts.filterMap chunkOfPost,
    settled := st.settled, fileExists := st.fileExists, log := st.log }

/-- The line loops of the two implementations agree under the
protocol-level projection. -/
theorem cvpProj_processLines (lines : List Str) (st : CvpState) :
    cvpProj (cvpProcessLines st lines) = processLines (cvpProj st) lines := by
  induction lines generalizing st with
  | nil => rfl
  | cons l rest ih =>
    by_cases hcl : isChunkLine l
    · rw [cvpProcessLines, processLines]
      simp only [hcl, if_pos]
      rw [ih]
      congr 1
      simp [cvpProj, List.filterMap_append, chunkOfPost]
    · by_cases hend : l = endStreamLine
      · subst hend
        simp [cvpProcessLines, processLines, hcl, cvpProj,
          List.filterMap_append, chunkOfPost]
      · by_cases herr : isErrorLine l
        · simp [cvpProcessLines, processLines, hcl, hend, herr, cvpProj]
        · rw [cvpProcessLines, processLines]
          simp only [hcl, hend, herr, Bool.false_eq_true, if_false,
            if_neg hend]
          exact ih st

/-- The data handlers of the two implementations agree under the
projection. -/
theorem cvpProj_onData (st : CvpState) (s : Str) :
    cvpProj (cvpOnData st s) = onData (cvpProj st) s := by
  rw [cvpOnData, onData, cvpProj_processLines]
  rfl

/-- The close handlers of the two implementations agree under the
projection. -/
theorem cvpProj_onClose (st : CvpState) (code : Nat) :
    cvpProj (cvpOnClose st code) = onClose (cvpProj st) code := by
  by_cases hc : code = 0 <;> simp [cvpOnClose, onClose, hc, cvpProj]

/-- One event step of the two implementations agrees under the
projection. -/
theorem cvpProj_step (st : CvpState) (e : Ev) :
    cvpProj (cvpStep st e) = step (cvpProj st) e := by
  cases e with
  | data s => exact cvpProj_onData st s
  | close code => exact cvpProj_onClose st code

/-- Whole-run correspondence of the two implementations. -/
theorem cvpProj_run (evs : List Ev) : cvpProj (cvpRun evs) = run evs := by
  have aux : ∀ (evs : List Ev) (st : CvpState),
      cvpProj (evs.foldl cvpStep st) = evs.foldl step (cvpProj st) := by
    intro evs
    induction evs with
    | nil => intro st; rfl
    | cons e rest ih =>
      intro st
      rw [List.foldl_cons, List.foldl_cons, ih, cvpProj_step]
  rw [cvpRun, run, aux]
  rfl

/-- C9: the two independently written streaming implementations are
protocol-equivalent: for every sequence of stdout data fragments and
close events, `ChatViewProvider.sendMessageToAgent` and
`AIAgentService.sendMessage` deliver the same chunk texts in the same
order (as `streamChunk` posts resp. `onChunk` calls) and settle their
promises with the same outcome. -/
theorem c9_implementations_equivalent (evs : List Ev) :
    (cvpRun evs).posts.filterMap chunkOfPost = (run evs).chunks ∧
    (cvpRun evs).settled = (run evs).settled := by
  have h := cvpProj_run evs
  exact ⟨congrArg StreamState.chunks h, congrArg StreamState.settled h⟩

/-- Producer side, as generated into the python script by both
implementations: the loop prints `CHUNK:{chunk}` with `end=""`, so the
chunks are written back to back with no separating newline. -/
def encodeChunks (cs : List Str) : Str :=
  (cs.map (fun c => chunkMarker ++ c)).flatten

/-- Entire successful stdout of the generated script: the unbroken
chunk run, then `print("\nEND_STREAM")`, which emits one newline, the
end marker, and print's own trailing newline. -/
def encodeStream (cs : List Str) : Str :=
  encodeChunks cs ++ "\nEND_STREAM\n".data

/-- The unbroken chunk run contains no newline when no chunk does. -/
theorem encodeChunks_no_newline (cs : List Str) (h : ∀ c ∈ cs, '\n' ∉ c) :
    '\n' ∉ encodeChunks cs := by
  induction cs with
  | nil => simp [encodeChunks]
  | cons c rest ih =>
    intro hmem
    rw [encodeChunks, List.map_cons, List.flatten_cons] at hmem
    rcases List.mem_append.mp hmem with h1 | h2
    · rcases List.mem_append.mp h1 with ha | hb
      · revert ha; decide
      · exact h c (List.mem_cons_self _ _) hb
    · exact ih (fun x hx => h x (List.mem_cons_of_mem _ hx)) h2

/-- C5 counterexample: for the chunk sequence ["Hello", " world"] the
generated producer does not write each chunk as its own line; decoding
its stdout yields the single chunk "HelloCHUNK: world" rather than the
original sequence, so the round-trip of the claim fails. -/
theorem c5_counterexample :
    (run [Ev.data (encodeStream ["Hello".data, " world".data])]).chunks
      = ["HelloCHUNK: world".data] ∧
    ["HelloCHUNK: world".data] ≠ ["Hello".data, " world".data] ∧
    (run [Ev.data (encodeStream ["Hello".data, " world".data])]).settled
      = some Outcome.resolved := by
  decide

/-- C5 (amended): the producer writes all chunks back to back on one
line (separated only by further `CHUNK:` markers) and terminates with
`\nEND_STREAM\n`; decoding its stdout with the consumer loop resolves
the promise and yields no chunk for an empty sequence, else exactly
one chunk: the concatenation of the chunk texts joined by the literal
`CHUNK:` marker.  The round-trip of the claim therefore holds only for
sequences of at most one chunk. -/
theorem c5_roundtrip_amended (cs : List Str) (h : ∀ c ∈ cs, '\n' ∉ c) :
    (run [Ev.data (encodeStream cs)]).settled = some Outcome.resolved ∧
    (run [Ev.data (encodeStream cs)]).chunks
      = (if cs = [] then [] else [(encodeChunks cs).drop 6]) := by
  have hnl : '\n' ∉ encodeChunks cs := encodeChunks_no_newline cs h
  have htail : ("\nEND_STREAM\n".data : Str) = '\n' :: "END_STREAM\n".data := by
    decide
  have hrest : splitLines "END_STREAM\n".data = (["END_STREAM".data], []) := by
    decide
  have hsplit : splitLines (encodeStream cs)
      = ([encodeChunks cs, endStreamLine], []) := by
    rw [encodeStream, htail, splitLines_newline_cut _ _ hnl, hrest]
    rfl
  have hrun : run [Ev.data (encodeStream cs)]
      = processLines { initState with buffer := [] }
          [encodeChunks cs, endStreamLine] := by
    show onData initState (encodeStream cs) = _
    rw [onData]
    have hb : initState.buffer ++ encodeStream cs = encodeStream cs := by
      simp [initState]
    rw [hb, hsplit]
  rcases cs with _ | ⟨c, rest⟩
  · exact ⟨by decide, by decide⟩
  · have hassoc : encodeChunks (c :: rest)
        = chunkMarker ++ (c ++ encodeChunks rest) := by
      simp [encodeChunks, List.append_assoc]
    have hchunk : isChunkLine (encodeChunks (c :: rest)) = true := by
      rw [isChunkLine, hassoc]
      exact startsWith_append _ _
    have hce : isChunkLine endStreamLine = false := by decide
    rw [hrun]
    refine ⟨?_, ?_⟩
    · simp [processLines, hchunk, hce, settle, initState]
    · simp [processLines, hchunk, hce, initState]

/-- Witness for C5 (amended): a single newline-free chunk round-trips
to itself followed by End. -/
theorem c5_roundtrip_amended_witness :
    (run [Ev.data (encodeStream ["Hi".data])]).settled
      = some Outcome.resolved ∧
    (run [Ev.data (encodeStream ["Hi".data])]).chunks
      = (if (["Hi".data] : List Str) = [] then []
         else [(encodeChunks ["Hi".data]).drop 6]) :=
  c5_roundtrip_amended ["Hi".data] (by decide)

/-- Close handler of `AIAgentService.clearSession` (identical in
`ChatViewProvider.clearAgentSession`): delete the temp script (failure
logged), then resolve exactly when the exit code is 0 and the captured
stdout contains `SUCCESS`; otherwise reject with the fixed message
`Failed to clear session`. -/
def clearSessionClose (code : Nat) (output : Str) (fileExists : Bool)
    (log : List Str) : Bool × List Str × Outcome :=
  if code = 0 ∧ "SUCCESS".data <:+: output then
    ((tryUnlink fileExists log).1, (tryUnlink fileExists log).2,
      Outcome.resolved)
  else
    ((tryUnlink fileExists log).1, (tryUnlink fileExists log).2,
      Outcome.rejected "Failed to clear session".data)

/-- Whitespace stripped by JavaScript `String.prototype.trim` (the
forms that occur on this wire). -/
def isJsWhitespace (c : Char) : Bool :=
  c = ' ' || c = '\t' || c = '\n' || c = '\r'

/-- Model of `output.trim()`. -/
def trimJs (s : Str) : Str :=
  ((s.dropWhile isJsWhitespace).reverse.dropWhile isJsWhitespace).reverse

/-- Role of a chat message (`'user' | 'assistant'`). -/
inductive Role
  | user
  | assistant
deriving DecidableEq

/-- The `ChatMessage` record of `AIAgentService`. -/
structure ChatMessage where
  type : Role
  content : Str
  timestamp : Str
deriving DecidableEq

/-- One entry of the JSON history array printed by the agent. -/
structure HistoryEntry where
  type : Str
  content : Str
  timestamp : Str
deriving DecidableEq

/-- The `history.map(...)` of `getSessionHistory`: entry type `human`
maps to `user`, anything else to `assistant`. -/
def mapHistoryEntry (e : HistoryEntry) : ChatMessage :=
  { type := if e.type = "human".data then Role.user else Role.assistant,
    content := e.content, timestamp := e.timestamp }

/-- Settlement of the `getSessionHistory` promise. -/
inductive HistoryResult
  | ok (messages : List ChatMessage)
  | error (message : Str)
deriving DecidableEq

/-- Close handler of `AIAgentService.getSessionHistory`, parameterized
by the platform JSON parser (`JSON.parse` inside the try/catch; `none`
models a parse exception): on exit code 0 the trimmed output is parsed
and mapped, and a parse failure rejects with the fixed message
`Failed to parse history response`; a non-zero exit instead rejects
with `Failed to get history, exit code: ${code}`. -/
def getSessionHistoryClose (parse : Str → Option (List HistoryEntry))
    (code : Nat) (output : Str) : HistoryResult :=
  if code = 0 then
    match parse (trimJs output) with
    | some history => HistoryResult.ok (history.map mapHistoryEntry)
    | none => HistoryResult.error "Failed to parse history response".data
  else
    HistoryResult.error
      ("Failed to get history, exit code: ".data ++ (toString code).data)

/-- C6 counterexample: when the agent reports `ERROR:boom` during a
session clear (the generated script catches the exception, prints the
line and exits 0), the promise is rejected with the fixed message
`Failed to clear session`, not with the verbatim message "boom". -/
theorem c6_counterexample :
    (clearSessionClose 0 "ERROR:boom\n".data true []).2.2
      = Outcome.rejected "Failed to clear session".data ∧
    Outcome.rejected "Failed to clear session".data
      ≠ Outcome.rejected "boom".data := by
  decide

/-- C6 (amended): only the streaming send surfaces an agent-reported
`ERROR:<message>` verbatim; on the same `ERROR:boom` line the session
clear rejects with the fixed message `Failed to clear session`, and
history retrieval (whose output `ERROR:boom` is not valid JSON)
rejects with `Failed to parse history response`. -/
theorem c6_error_surfacing_amended
    (parse : Str → Option (List HistoryEntry))
    (hp : parse (trimJs "ERROR:boom\n".data) = none) :
    (run [Ev.data "ERROR:boom\n".data]).settled
      = some (Outcome.rejected "boom".data) ∧
    (clearSessionClose 0 "ERROR:boom\n".data true []).2.2
      = Outcome.rejected "Failed to clear session".data ∧
    getSessionHistoryClose parse 0 "ERROR:boom\n".data
      = HistoryResult.error "Failed to parse history response".data := by
  refine ⟨by decide, by decide, ?_⟩
  simp [getSessionHistoryClose, hp]

/-- Witness for C6 (amended), with the parse model rejecting the
non-JSON output. -/
theorem c6_error_surfacing_amended_witness :
    (run [Ev.data "ERROR:boom\n".data]).settled
      = some (Outcome.rejected "boom".data) ∧
    (clearSessionClose 0 "ERROR:boom\n".data true []).2.2
      = Outcome.rejected "Failed to clear session".data ∧
    getSessionHistoryClose (fun _ => none) 0 "ERROR:boom\n".data
      = HistoryResult.error "Failed to parse history response".data :=
  c6_error_surfacing_amended (fun _ => none) rfl

/-- C8: a zero-exit history query whose stdout fails to parse rejects
with the distinct message `Failed to parse history response`, a
non-zero exit rejects with the transport-style message
`Failed to get history, exit code: ${code}`, and no instance of the
former message can equal an instance of the latter. -/
theorem c8_history_parse_vs_transport
    (parse : Str → Option (List HistoryEntry)) (code : Nat) (output : Str) :
    (code = 0 → parse (trimJs output) = none →
      getSessionHistoryClose parse code output
        = HistoryResult.error "Failed to parse history response".data) ∧
    (code ≠ 0 →
      getSessionHistoryClose parse code output
        = HistoryResult.error
            ("Failed to get history, exit code: ".data
              ++ (toString code).data)) ∧
    (∀ tail : Str,
      ("Failed to parse history response".data : Str)
        ≠ "Failed to get history, exit code: ".data ++ tail) := by
  refine ⟨?_, ?_, ?_⟩
  · intro h0 hp
    simp [getSessionHistoryClose, h0, hp]
  · intro hne
    simp [getSessionHistoryClose, hne]
  · intro tail heq
    have h15 := congrArg (List.take 15) heq
    rw [List.take_append_of_le_length (by decide)] at h15
    exact absurd h15 (by decide)

/-- Witness for C8: a failed parse at exit code 0 and a non-zero exit
produce the two distinct messages. -/
theorem c8_history_parse_vs_transport_witness :
    getSessionHistoryClose (fun _ => none) 0 "not json".data
      = HistoryResult.error "Failed to parse history response".data ∧
    getSessionHistoryClose (fun _ => none) 1 "".data
      = HistoryResult.error
          ("Failed to get history, exit code: ".data ++ (toString 1).data) :=
  ⟨(c8_history_parse_vs_transport (fun _ => none) 0 "not json".data).1
      rfl rfl,
   (c8_history_parse_vs_transport (fun _ => none) 1 "".data).2.1
      (by decide)⟩

end MCP
